import Mathlib

/-!
Verification of the express-template repository's core: the guarded query
builder over the Task collection (`safeFindById`, `safeLimit`,
`safeStartsWith`, `applyStaticMethods` in `src/db/models/Task`) and the
pipeline executor consumed by the response formatter (`response.json`).

JavaScript runtime values are embedded as the inductive `JSVal`; thrown
errors are embedded as the inductive `Err` and fallible operations return
`Except Err _` or a `_ × Option Err` state-and-error pair mirroring the
source's mutate-or-throw order.
-/

/-- Modelled from the spec: the repository's `utils/error` module is not under
src/. Per spec section 6 the error signaling types are distinguishable kinds,
each carrying a human-readable message; constructor arguments follow the call
sites in `src/db/models/Task/TaskModel.js`
(`new BadRequestError(msg)`, `new NotFoundError(msg)`,
`new InvalidParamTypeError(param, expected, received)`,
`new MissingParamError(param)`, `new DependencyError(dep, msg)`). -/
inductive Err where
  | badRequest (msg : String)
  | notFound (msg : String)
  | invalidParamType (param expected received : String)
  | missingParam (param : String)
  | dependencyError (dep msg : String)
deriving DecidableEq, Repr

/-- Embedding of JavaScript runtime values, as far as the verified code
inspects them (`typeof`, truthiness, `Array.isArray`, property access).
Functions are opaque to the verified code and carry only an identity tag. -/
inductive JSVal where
  | vUndefined
  | vNull
  | vBool (b : Bool)
  | vNum (q : ℚ)
  | vStr (s : String)
  | vFun (tag : Nat)
  | vArr (elems : List JSVal)
  | vObj (fields : List (String × JSVal))

/-- JavaScript `typeof`. -/
def typeofStr : JSVal → String
  | .vUndefined => "undefined"
  | .vNull => "object"
  | .vBool _ => "boolean"
  | .vNum _ => "number"
  | .vStr _ => "string"
  | .vFun _ => "function"
  | .vArr _ => "object"
  | .vObj _ => "object"

/-- JavaScript truthiness (`!v` is `!truthy v`). `NaN` is not modelled. -/
def truthy : JSVal → Bool
  | .vUndefined => false
  | .vNull => false
  | .vBool b => b
  | .vNum q => q != 0
  | .vStr s => !s.isEmpty
  | .vFun _ => true
  | .vArr _ => true
  | .vObj _ => true

/-- JavaScript `Array.isArray`. -/
def isArray : JSVal → Bool
  | .vArr _ => true
  | _ => false

/-- Elements of an array value (empty for non-arrays). -/
def arrayElems : JSVal → List JSVal
  | .vArr es => es
  | _ => []

/-- Property access `v[k]`, yielding `undefined` when absent or when the
receiver is not an object (the verified code only destructures objects). -/
def getProp (v : JSVal) (k : String) : JSVal :=
  match v with
  | .vObj fields =>
    match fields.find? (fun p => p.1 == k) with
    | some p => p.2
    | none => .vUndefined
  | _ => .vUndefined

/-- The string payload of a string value (only applied after a
`typeof x === 'string'` guard in the verified code). -/
def jsStrVal : JSVal → String
  | .vStr s => s
  | _ => ""

/-- Hexadecimal digit test, as used by the store's identifier format. -/
def isHexChar (c : Char) : Bool :=
  c.isDigit || ('a' ≤ c && c ≤ 'f') || ('A' ≤ c && c ≤ 'F')

/-- The store's native identifier validity check
(`mongoose.Types.ObjectId.isValid`, an external collaborator per spec
section 6): a string is a well-formed ObjectId when it is 24 hexadecimal
characters, or 12 characters (a raw 12-byte id). -/
def objectIdIsValid (s : String) : Bool :=
  s.length == 12 || (s.length == 24 && s.toList.all isHexChar)

/-- A stored Task document: its identifier and its named string fields. -/
structure TaskDoc where
  id : String
  fields : List (String × String)
deriving DecidableEq, Repr

/-- Field access on a document; an absent field reads as the empty string. -/
def getField (d : TaskDoc) (k : String) : String :=
  match d.fields.find? (fun p => p.1 == k) with
  | some p => p.2
  | none => ""

/-- Embedding of `safeFindById` from `src/db/models/Task/TaskModel.js`
(TaskMethods): validate the id with the store's native check, throwing
`BadRequestError('Invalid ID format')` when malformed; then look the id up
(`this.findById(id).exec()`, with the model's collection embedded as the
list `docs` and `findById` as first-match lookup), throwing
`NotFoundError('Task not found')` when no document matches; otherwise
return the document. -/
def safeFindById (docs : List TaskDoc) (id : String) : Except Err TaskDoc :=
  if objectIdIsValid id = false then
    Except.error (Err.badRequest "Invalid ID format")
  else
    match docs.find? (fun d => d.id == id) with
    | none => Except.error (Err.notFound "Task not found")
    | some d => Except.ok d

/-- Regular-expression metacharacters, exactly the character class escaped by
`safeStartsWith`'s `escapeRegex` helper in `TaskModel.js`
(the replace pattern covers `.` `*` `+` `?` `^` `$` braces, parentheses,
`|`, square brackets and backslash). -/
def isRegexMeta (c : Char) : Bool :=
  c == '.' || c == '*' || c == '+' || c == '?' || c == '^' || c == '$' ||
  c == '\x7b' || c == '\x7d' || c == '(' || c == ')' || c == '|' ||
  c == '[' || c == ']' || c == '\\'

/-- Embedding of `escapeRegex` from `TaskModel.js`:
`str.replace(metacharClass, backslash-then-match)` — every metacharacter is
replaced by a backslash followed by itself; other characters pass through. -/
def escListChars : List Char → List Char
  | [] => []
  | c :: cs => (if isRegexMeta c then ['\\', c] else [c]) ++ escListChars cs

/-- A token of the regular-expression fragment the verified code builds:
a literal character or the `.` wildcard. -/
inductive RTok where
  | lit (c : Char)
  | anyChar
deriving DecidableEq, Repr

/-- Lexing of a JavaScript regular-expression body restricted to the fragment
the verified code can produce: a backslash escapes the next character into a
literal, an unescaped `.` is the any-character wildcard, and every other
character is a literal (a trailing lone backslash is read as a literal
backslash; the escaped patterns built by `safeStartsWith` never produce
one). -/
def lexRegex : List Char → List RTok
  | [] => []
  | p :: ps =>
    if p = '\\' then
      match ps with
      | [] => [RTok.lit '\\']
      | c :: ps2 => RTok.lit c :: lexRegex ps2
    else if p = '.' then RTok.anyChar :: lexRegex ps
    else RTok.lit p :: lexRegex ps

/-- Anchored matching of a token sequence against the start of a text, with
the `i` flag's case-insensitive character comparison; the pattern may end
before the text does (prefix semantics). -/
def matchToks : List RTok → List Char → Bool
  | [], _ => true
  | RTok.lit c :: rs, t :: ts => (c.toLower == t.toLower) && matchToks rs ts
  | RTok.anyChar :: rs, _ :: ts => matchToks rs ts
  | _ :: _, [] => false

/-- Unanchored search: the token sequence may match starting at any position
of the text (JavaScript / MongoDB regex semantics without `^`). -/
def searchToks (rs : List RTok) : List Char → Bool
  | [] => matchToks rs []
  | t :: ts => matchToks rs (t :: ts) || searchToks rs ts

/-- Whether the regular expression with source `pat` and the `i` flag accepts
text `t`: a leading `^` anchors the match at the start, otherwise the pattern
may match anywhere. -/
def regexTest (pat t : List Char) : Bool :=
  match pat with
  | '^' :: body => matchToks (lexRegex body) t
  | _ => searchToks (lexRegex pat) t

/-- Case-insensitive "literally starts with": the specification's notion of a
prefix match (glossary: a filter selecting values that begin with a literal,
metacharacter-escaped string, ignoring case). Compared against the pattern
the source builds. -/
def listPrefixCI : List Char → List Char → Bool
  | [], _ => true
  | _ :: _, [] => false
  | a :: as, b :: bs => (a.toLower == b.toLower) && listPrefixCI as bs

/-- The pattern built by `safeStartsWith`: a start anchor followed by the
metacharacter-escaped search string (`new RegExp('^' + escapeRegex(data),
'i')`). -/
def mkStartsWithPattern (s : String) : List Char :=
  '^' :: escListChars s.toList

/-- A Mongoose query under construction, as far as the verified code mutates
it: the accumulated `where`-filters (field name and regex pattern, matched
case-insensitively) and the result-count ceiling set by `limit`. -/
structure Query where
  filters : List (String × List Char)
  limit : Option ℚ
deriving DecidableEq, Repr

/-- The query produced by `Task.find(\x7b\x7d)`: no filter, no ceiling. -/
def emptyQuery : Query := ⟨[], none⟩

/-- The declared paths of the Task schema (`Task.schema.paths`): the
`description` field declared in `TaskModel.js` plus the automatic `_id`
path the object-document mapper adds. -/
def taskSchemaPaths : List String := ["description", "_id"]

/-- Modelled from the spec: the zod rule `taskSchema.limit` lives in
`validators/exampleSchema`, which is not under src/. Per spec sections 4.2
and 6 it is a bounded-integer rule ("positive integer within bounds") whose
`safeParse` returns the parsed number as `data` on success. The bound is
taken as 100; the claims only exercise `-1`, `1.5` (rejected) and `5`
(accepted), which any positive bound at least 5 classifies identically. -/
def limitSafeParse (n : ℚ) : Option ℚ :=
  if n.den = 1 ∧ 1 ≤ n ∧ n ≤ 100 then some n else none

/-- The zod rule applied to an arbitrary runtime value: a number schema
rejects every non-number. -/
def limitSafeParseV : JSVal → Option ℚ
  | .vNum m => limitSafeParse m
  | _ => none

/-- Embedding of `safeLimit` from `TaskModel.js`: `if (!n) return this`
(falsy argument is a no-op); otherwise `taskSchema.limit.safeParse(n)`,
throwing `BadRequestError('Invalid Limit')` on failure, and
`this.limit(data)` on success. The returned pair is the state of the
underlying query object after the call together with the thrown error, if
any. -/
def safeLimit (q : Query) (n : JSVal) : Query × Option Err :=
  if truthy n = false then (q, none)
  else
    match limitSafeParseV n with
    | some d => ({ q with limit := some d }, none)
    | none => (q, some (Err.badRequest "Invalid Limit"))

/-- Modelled from the spec: the zod rule `taskSchema.searchParam` lives in
`validators/exampleSchema`, which is not under src/. Per spec section 6 it
is a string rule whose `safeParse` returns the string as `data` on
success; with the argument already a string it accepts it unchanged. -/
def searchParamSafeParse (s : String) : Option String := some s

/-- Embedding of `safeStartsWith` from `TaskModel.js`:
`if (!searchParam) return this` (falsy argument is a no-op); otherwise
`taskSchema.searchParam.safeParse(searchParam)`, throwing
`BadRequestError('Invalid searchParam')` on failure; then
`if (!(key in Task.schema.paths))` throwing
`BadRequestError('No Property ' + key + ' found')`; otherwise
`this.where(key, new RegExp('^' + escapeRegex(data), 'i'))`. The model's
schema paths are passed as `modelPaths`. The returned pair is the state of
the underlying query object after the call together with the thrown error,
if any. -/
def safeStartsWith (q : Query) (searchParam key : String)
    (modelPaths : List String) : Query × Option Err :=
  if searchParam.isEmpty then (q, none)
  else
    match searchParamSafeParse searchParam with
    | none => (q, some (Err.badRequest "Invalid searchParam"))
    | some data =>
      if key ∈ modelPaths then
        ({ q with filters := q.filters ++ [(key, mkStartsWithPattern data)] },
         none)
      else (q, some (Err.badRequest ("No Property " ++ key ++ " found")))

/-- Whether a document satisfies every accumulated filter of a query. -/
def docMatches (q : Query) (d : TaskDoc) : Bool :=
  q.filters.all (fun f => regexTest f.2 (getField d f.1).toList)

/-- Executing a query against the store (`query.exec()`): the documents
satisfying every filter, truncated to the ceiling when one is set. -/
def execQuery (docs : List TaskDoc) (q : Query) : List TaskDoc :=
  match q.limit with
  | none => docs.filter (docMatches q)
  | some d => (docs.filter (docMatches q)).take d.num.toNat

/-- The `received` string of the first, combined check in
`applyStaticMethods`: the source interpolates the `Function` constructor
itself (`name: ${Function} and fn: ${Function}`), so the message is this
fixed text. -/
def combinedReceivedMsg : String :=
  "name: function Function() \x7b [native code] \x7d and fn: function Function() \x7b [native code] \x7d"

/-- The error thrown by the loop body of `applyStaticMethods` for one entry,
if any, in the source's check order: first the combined check
(`typeof fn !== 'function' && typeof name !== 'string'`), then the
name-must-be-a-string check, then the fn-must-be-callable check — the last
reporting `typeof name`, not `typeof fn`, as the received type. -/
def entryErr (e : JSVal) : Option Err :=
  if typeofStr (getProp e "fn") ≠ "function" ∧ typeofStr (getProp e "name") ≠ "string" then
    some (Err.invalidParamType "method" "\x7bfn: function, name: string\x7d"
      combinedReceivedMsg)
  else if typeofStr (getProp e "name") ≠ "string" then
    some (Err.invalidParamType "method" "string" (typeofStr (getProp e "name")))
  else if typeofStr (getProp e "fn") ≠ "function" then
    some (Err.invalidParamType "method" "function" (typeofStr (getProp e "name")))
  else none

/-- The static-registry binding a valid entry installs
(`TaskSchema.statics[name] = fn`). -/
def installPair (e : JSVal) : String × JSVal :=
  (jsStrVal (getProp e "name"), getProp e "fn")

/-- The `for (const \x7b name, fn \x7d of methods)` loop of
`applyStaticMethods`: entries are processed in list order; the first entry
whose checks fail aborts the loop with its error, leaving the bindings
installed so far; a valid entry appends its binding to the schema's static
registry (embedded as the list `statics`). -/
def applyLoop (statics : List (String × JSVal)) :
    List JSVal → List (String × JSVal) × Option Err
  | [] => (statics, none)
  | e :: rest =>
    match entryErr e with
    | some err => (statics, some err)
    | none => applyLoop (statics ++ [installPair e]) rest

/-- Embedding of `applyStaticMethods` from `TaskModel.js`, in the source's
check order: `if (!Array.isArray(methods))` throws
`InvalidParamTypeError('methods', 'Array', typeof methods)`; then
`if (!TaskSchema)` throws `MissingParamError('TaskSchema')`; then
`if (!methods)` throws `MissingParamError('methods')`; then the entry loop
runs. The pair returned is the schema's static registry after the call
together with the thrown error, if any. -/
def applyStaticMethods (TaskSchema methods : JSVal)
    (statics : List (String × JSVal)) : List (String × JSVal) × Option Err :=
  if isArray methods = false then
    (statics, some (Err.invalidParamType "methods" "Array" (typeofStr methods)))
  else if truthy TaskSchema = false then
    (statics, some (Err.missingParam "TaskSchema"))
  else if truthy methods = false then
    (statics, some (Err.missingParam "methods"))
  else applyLoop statics (arrayElems methods)

/-- Modelled from the spec: the repository's `operations/pipe.js`
(`createPipeOps`) is not under src/. Per spec section 4.1 the executor folds
the initial value through each step strictly in sequence order, awaiting
asynchronous steps, and stops immediately when a step fails; a step's
throw/rejection is embedded as `Except.error`. -/
def runSteps {α ε : Type} (v : α) : List (α → Except ε α) → Except ε α
  | [] => Except.ok v
  | f :: fs =>
    match f v with
    | Except.ok w => runSteps w fs
    | Except.error e => Except.error e

/-- Modelled from the spec: `createPipeOps().create(ops, terminal)` — the
initial value (`arrayStore`) is folded through the steps (`runLast`); on
success the terminal consumer is invoked once with the final value and its
return value is returned; a failure propagates to the caller without the
terminal consumer running. -/
def pipeCreate {α β ε : Type} (v : α) (steps : List (α → Except ε α))
    (terminal : α → β) : Except ε β :=
  (runSteps v steps).map terminal

/-- A step that never fails, built from a plain function. -/
def liftPure {α ε : Type} (g : α → α) : α → Except ε α :=
  fun a => Except.ok (g a)

/-- The JSON body emitted by `response.json` in
`src/unnamed/part_001`: the pipeline branch sends
`\x7b success, pipeData, statusCode \x7d`, the plain branch sends
`\x7b success, data, statusCode \x7d`; the constructor records which wire
keys the body carries. -/
inductive RespBody (α : Type) where
  | pipe (success : Bool) (pipeData : α) (statusCode : Nat)
  | plain (success : Bool) (data : α) (statusCode : Nat)
deriving DecidableEq, Repr

/-- The wire-format keys of an emitted body, in emission order. -/
def RespBody.keys {α : Type} : RespBody α → List String
  | .pipe _ _ _ => ["success", "pipeData", "statusCode"]
  | .plain _ _ _ => ["success", "data", "statusCode"]

/-- Embedding of `response.json` from `src/unnamed/part_001`:
`if (pipeCallBacks?.length)` build a pipeline over `data` whose terminal
consumer emits `res.status(statusCode).json(\x7b success, pipeData,
statusCode \x7d)`; otherwise emit `res.status(statusCode).json(\x7b success,
data, statusCode \x7d)` directly. The emitted body is the result; a step
failure surfaces as `Except.error`. -/
def response_json {α ε : Type} (data : α) (statusCode : Nat) (success : Bool)
    (pipeCallBacks : List (α → Except ε α)) : Except ε (RespBody α) :=
  if pipeCallBacks.length ≠ 0 then
    pipeCreate data pipeCallBacks
      (fun pipeData => RespBody.pipe success pipeData statusCode)
  else Except.ok (RespBody.plain success data statusCode)

/-- The rational 1.5 (= 3/2, already in lowest terms), the non-integer limit
argument exercised by the witnesses. -/
def threeHalves : ℚ := ⟨3, 2, by norm_num, by norm_num⟩

/-- Sample store contents used to witness the guarded-query theorems. -/
def demoDoc : TaskDoc :=
  ⟨"0123456789abcdef01234567", [("description", "Alpha task")]⟩

/-- A second sample document. -/
def demoDoc2 : TaskDoc :=
  ⟨"89abcdef0123456789abcdef", [("description", "Beta task")]⟩

/-- The sample store. -/
def demoDocs : List TaskDoc := [demoDoc, demoDoc2]

/-- A backslash-escaped character lexes to that literal character. -/
theorem lexRegex_cons_esc (c : Char) (ps : List Char) :
    lexRegex ('\\' :: c :: ps) = RTok.lit c :: lexRegex ps := by
  rw [lexRegex.eq_def]; simp

/-- A character that is neither a backslash nor a dot lexes to itself as a
literal. -/
theorem lexRegex_cons_other (c : Char) (ps : List Char) (h1 : ¬ c = '\\')
    (h2 : ¬ c = '.') : lexRegex (c :: ps) = RTok.lit c :: lexRegex ps := by
  rw [lexRegex.eq_def]; simp [h1, h2]

/-- Lexing an escaped string yields exactly its characters as literals: no
metacharacter survives as a wildcard or operator. -/
theorem lexRegex_escListChars (s : List Char) :
    lexRegex (escListChars s) = s.map RTok.lit := by
  induction s with
  | nil => rfl
  | cons c cs ih =>
    by_cases h : isRegexMeta c = true
    · simp [escListChars, h, lexRegex_cons_esc, ih]
    · have h1 : ¬ c = '\\' := by
        intro hc; subst hc; simp [isRegexMeta] at h
      have h2 : ¬ c = '.' := by
        intro hc; subst hc; simp [isRegexMeta] at h
      simp [escListChars, h, lexRegex_cons_other c _ h1 h2, ih]

/-- Matching a sequence of literal tokens is the case-insensitive prefix
test. -/
theorem matchToks_map_lit (s t : List Char) :
    matchToks (s.map RTok.lit) t = listPrefixCI s t := by
  induction s generalizing t with
  | nil => simp [matchToks, listPrefixCI]
  | cons c cs ih =>
    cases t with
    | nil => simp [matchToks, listPrefixCI]
    | cons b bs => simp [matchToks, listPrefixCI, ih]

/-- The anchored, escaped, case-insensitive pattern accepts exactly the texts
that literally start with the search string (up to case). -/
theorem regexTest_mkStartsWithPattern (s : String) (t : List Char) :
    regexTest (mkStartsWithPattern s) t = listPrefixCI s.toList t := by
  simp [regexTest, mkStartsWithPattern, lexRegex_escListChars, matchToks_map_lit]

/-- C1: `safeFindById` rejects a malformed id with a BadRequest-kind error
before any lookup (the result does not depend on the store's contents),
rejects a well-formed but absent id with a NotFound-kind error, and returns
the single matching document when one exists. -/
theorem claim_C1_safeFindById (docs : List TaskDoc) (id : String) :
    (objectIdIsValid id = false →
      safeFindById docs id = Except.error (Err.badRequest "Invalid ID format")) ∧
    (objectIdIsValid id = true → (∀ d ∈ docs, d.id ≠ id) →
      safeFindById docs id = Except.error (Err.notFound "Task not found")) ∧
    (∀ d, objectIdIsValid id = true → d ∈ docs → d.id = id →
      (∀ d2 ∈ docs, d2.id = id → d2 = d) →
      safeFindById docs id = Except.ok d) := by
  refine ⟨fun h => by simp [safeFindById, h], fun h hnone => ?_,
    fun d h hd hid huniq => ?_⟩
  · have hfind : docs.find? (fun d => d.id == id) = none := by
      rw [List.find?_eq_none]
      intro x hx
      simpa using hnone x hx
    simp [safeFindById, h, hfind]
  · have hsome : ∃ r, docs.find? (fun d => d.id == id) = some r := by
      have hs : (docs.find? (fun d => d.id == id)).isSome := by
        rw [List.find?_isSome]
        exact ⟨d, hd, by simpa using hid⟩
      exact Option.isSome_iff_exists.mp hs
    obtain ⟨r, hr⟩ := hsome
    have hrmem : r ∈ docs := List.mem_of_find?_eq_some hr
    have hrid : r.id = id := by simpa using List.find?_some hr
    have hrd : r = d := huniq r hrmem hrid
    subst hrd
    simp [safeFindById, h, hr]

/-- Witness for C1 on the sample store: a malformed id, a well-formed absent
id, and an existing id. -/
theorem claim_C1_witness :
    safeFindById demoDocs "not-a-valid-id" =
      Except.error (Err.badRequest "Invalid ID format") ∧
    safeFindById demoDocs "aaaaaaaaaaaaaaaaaaaaaaaa" =
      Except.error (Err.notFound "Task not found") ∧
    safeFindById demoDocs "0123456789abcdef01234567" = Except.ok demoDoc :=
  ⟨(claim_C1_safeFindById demoDocs "not-a-valid-id").1 (by decide),
   (claim_C1_safeFindById demoDocs "aaaaaaaaaaaaaaaaaaaaaaaa").2.1 (by decide)
     (by decide),
   (claim_C1_safeFindById demoDocs "0123456789abcdef01234567").2.2 demoDoc
     (by decide) (by decide) (by decide) (by decide)⟩

/-- C2: `safeLimit` is a no-op on a falsy argument (`undefined`, `0`), fails
with a BadRequest-kind validation error when the bounded-integer rule rejects
the argument, and on a valid positive integer stores the ceiling so that
executing the query returns at most that many records. -/
theorem claim_C2_safeLimit (q : Query) (n : JSVal) :
    (truthy n = false → safeLimit q n = (q, none)) ∧
    (truthy n = true → limitSafeParseV n = none →
      safeLimit q n = (q, some (Err.badRequest "Invalid Limit"))) ∧
    (∀ d : ℚ, truthy n = true → limitSafeParseV n = some d →
      safeLimit q n = ({ q with limit := some d }, none) ∧
      ∀ docs : List TaskDoc,
        (execQuery docs (safeLimit q n).1).length ≤ d.num.toNat) := by
  refine ⟨fun h => by simp [safeLimit, h], fun ht hp => by simp [safeLimit, ht, hp],
    fun d ht hp => ?_⟩
  have hres : safeLimit q n = ({ q with limit := some d }, none) := by
    simp [safeLimit, ht, hp]
  refine ⟨hres, fun docs => ?_⟩
  rw [hres]
  simp only [execQuery]
  exact List.length_take_le _ _

/-- Witness for C2: `undefined` and `0` are no-ops, `-1` and `3/2` fail
validation, `5` caps a concrete execution at five records. -/
theorem claim_C2_witness :
    safeLimit emptyQuery JSVal.vUndefined = (emptyQuery, none) ∧
    safeLimit emptyQuery (JSVal.vNum 0) = (emptyQuery, none) ∧
    safeLimit emptyQuery (JSVal.vNum (-1)) =
      (emptyQuery, some (Err.badRequest "Invalid Limit")) ∧
    safeLimit emptyQuery (JSVal.vNum threeHalves) =
      (emptyQuery, some (Err.badRequest "Invalid Limit")) ∧
    safeLimit emptyQuery (JSVal.vNum 5) =
      ({ emptyQuery with limit := some 5 }, none) ∧
    (execQuery demoDocs (safeLimit emptyQuery (JSVal.vNum 5)).1).length ≤
      (5 : ℚ).num.toNat :=
  ⟨(claim_C2_safeLimit emptyQuery JSVal.vUndefined).1 (by decide),
   (claim_C2_safeLimit emptyQuery (JSVal.vNum 0)).1 (by decide),
   (claim_C2_safeLimit emptyQuery (JSVal.vNum (-1))).2.1 (by decide) (by decide),
   (claim_C2_safeLimit emptyQuery (JSVal.vNum threeHalves)).2.1 (by decide)
     (by decide),
   ((claim_C2_safeLimit emptyQuery (JSVal.vNum 5)).2.2 5 (by decide) (by decide)).1,
   ((claim_C2_safeLimit emptyQuery (JSVal.vNum 5)).2.2 5 (by decide) (by decide)).2
     demoDocs⟩

/-- C3: `safeStartsWith` is a no-op on a falsy search string; with an
accepted search string it fails with a BadRequest-kind error naming the key
when the key is not a declared schema path, and otherwise appends a filter
whose case-insensitive, metacharacter-escaped pattern accepts exactly the
values literally starting with the search string — so a `.` in the search
string does not act as a wildcard. -/
theorem claim_C3_safeStartsWith (q : Query) (s key : String)
    (paths : List String) :
    (s = "" → safeStartsWith q s key paths = (q, none)) ∧
    (s ≠ "" → key ∉ paths →
      safeStartsWith q s key paths =
        (q, some (Err.badRequest ("No Property " ++ key ++ " found")))) ∧
    (s ≠ "" → key ∈ paths →
      safeStartsWith q s key paths =
        ({ q with filters := q.filters ++ [(key, mkStartsWithPattern s)] },
         none) ∧
      ∀ t : String, regexTest (mkStartsWithPattern s) t.toList =
        listPrefixCI s.toList t.toList) := by
  refine ⟨fun h => ?_, fun hs hk => ?_, fun hs hk => ?_⟩
  · subst h
    have he : ("" : String).isEmpty = true := rfl
    simp [safeStartsWith, he]
  · simp [safeStartsWith, String.isEmpty_iff, hs, searchParamSafeParse, hk]
  · exact ⟨by simp [safeStartsWith, String.isEmpty_iff, hs, searchParamSafeParse, hk],
      fun t => regexTest_mkStartsWithPattern s t.toList⟩

/-- Witness for C3: `a.b` on `description` adds the escaped filter; the
pattern accepts `"A.bc"` but not `"axbc"` (so the dot is literal); an
undeclared key fails naming that key; an empty search string is a no-op. -/
theorem claim_C3_witness :
    safeStartsWith emptyQuery "a.b" "description" taskSchemaPaths =
      ({ emptyQuery with
          filters := [("description", mkStartsWithPattern "a.b")] }, none) ∧
    regexTest (mkStartsWithPattern "a.b") "A.bc".toList = true ∧
    regexTest (mkStartsWithPattern "a.b") "axbc".toList = false ∧
    safeStartsWith emptyQuery "x" "nonexistentField" taskSchemaPaths =
      (emptyQuery,
       some (Err.badRequest "No Property nonexistentField found")) ∧
    safeStartsWith emptyQuery "" "description" taskSchemaPaths =
      (emptyQuery, none) := by
  have h3 := (claim_C3_safeStartsWith emptyQuery "a.b" "description"
    taskSchemaPaths).2.2 (by decide) (by decide)
  refine ⟨h3.1, ?_, ?_,
    (claim_C3_safeStartsWith emptyQuery "x" "nonexistentField"
      taskSchemaPaths).2.1 (by decide) (by decide),
    (claim_C3_safeStartsWith emptyQuery "" "description" taskSchemaPaths).1 rfl⟩
  · rw [h3.2 "A.bc"]; decide
  · rw [h3.2 "axbc"]; decide

/-- C8: the mutating query operations never partially apply an invalid
mutation — whenever `safeLimit` or `safeStartsWith` fails, the query's
accumulated filters and result-count ceiling are exactly as they were before
the call. -/
theorem claim_C8_no_partial_mutation (q : Query) (n : JSVal) (s key : String)
    (paths : List String) :
    (∀ e : Err, (safeLimit q n).2 = some e → (safeLimit q n).1 = q) ∧
    (∀ e : Err, (safeStartsWith q s key paths).2 = some e →
      (safeStartsWith q s key paths).1 = q) := by
  constructor
  · intro e he
    by_cases ht : truthy n = false
    · simp [safeLimit, ht] at he
    · rcases hp : limitSafeParseV n with _ | d
      · simp [safeLimit, ht, hp]
      · simp [safeLimit, ht, hp] at he
  · intro e he
    by_cases hs : s = ""
    · subst hs
      have hemp : ("" : String).isEmpty = true := rfl
      simp [safeStartsWith, hemp] at he
    · by_cases hk : key ∈ paths
      · simp [safeStartsWith, String.isEmpty_iff, hs, searchParamSafeParse, hk] at he
      · simp [safeStartsWith, String.isEmpty_iff, hs, searchParamSafeParse, hk]

/-- Witness for C8: a rejected limit and a rejected key both leave the empty
query untouched. -/
theorem claim_C8_witness :
    (safeLimit emptyQuery (JSVal.vNum (-1))).1 = emptyQuery ∧
    (safeStartsWith emptyQuery "x" "nonexistentField" taskSchemaPaths).1 =
      emptyQuery :=
  ⟨(claim_C8_no_partial_mutation emptyQuery (JSVal.vNum (-1)) "x"
      "nonexistentField" taskSchemaPaths).1
    (Err.badRequest "Invalid Limit") (by decide),
   (claim_C8_no_partial_mutation emptyQuery (JSVal.vNum (-1)) "x"
      "nonexistentField" taskSchemaPaths).2
    (Err.badRequest "No Property nonexistentField found") (by decide)⟩

/-- When every entry passes the checks, the loop installs all bindings in
list order and reports no error. -/
theorem applyLoop_all_valid :
    ∀ (es : List JSVal) (statics : List (String × JSVal)),
      (∀ e ∈ es, entryErr e = none) →
      applyLoop statics es = (statics ++ es.map installPair, none) := by
  intro es
  induction es with
  | nil => intro statics _; simp [applyLoop]
  | cons e rest ih =>
    intro statics h
    have he : entryErr e = none := h e (by simp)
    have hr := ih (statics ++ [installPair e]) (fun x hx => h x (by simp [hx]))
    simp [applyLoop, he, hr]

/-- The loop aborts at the first failing entry with that entry's error,
keeping exactly the bindings installed before it; the entries after the
failing one play no role. -/
theorem applyLoop_first_invalid (bad : JSVal) (post : List JSVal) (err : Err)
    (hbad : entryErr bad = some err) :
    ∀ (pre : List JSVal) (statics : List (String × JSVal)),
      (∀ e ∈ pre, entryErr e = none) →
      applyLoop statics (pre ++ bad :: post) =
        (statics ++ pre.map installPair, some err) := by
  intro pre
  induction pre with
  | nil => intro statics _; simp [applyLoop, hbad]
  | cons e rest ih =>
    intro statics h
    have he : entryErr e = none := h e (by simp)
    have hr := ih (statics ++ [installPair e]) (fun x hx => h x (by simp [hx]))
    simp [applyLoop, he, hr]

/-- The loop body never throws a missing-parameter error. -/
theorem entryErr_ne_missingParam (e : JSVal) (p : String) :
    entryErr e ≠ some (Err.missingParam p) := by
  unfold entryErr
  split
  · simp
  · split
    · simp
    · split
      · simp
      · simp

/-- Every proper array is truthy. -/
theorem truthy_of_isArray (v : JSVal) (h : isArray v = true) :
    truthy v = true := by
  cases v <;> simp_all [isArray, truthy]

/-- No run of the entry loop ends in a missing-parameter error. -/
theorem applyLoop_ne_missingParam :
    ∀ (es : List JSVal) (statics : List (String × JSVal)) (p : String),
      (applyLoop statics es).2 ≠ some (Err.missingParam p) := by
  intro es
  induction es with
  | nil => intro statics p; simp [applyLoop]
  | cons e rest ih =>
    intro statics p
    rcases he : entryErr e with _ | err
    · simpa [applyLoop, he] using ih (statics ++ [installPair e]) p
    · simp only [applyLoop, he]
      intro hcontra
      exact entryErr_ne_missingParam e p (he.trans (by simpa using hcontra))

/-- C4: `applyStaticMethods` installs entries strictly in list order and
aborts at the first invalid entry: all valid entries preceding it are
installed and remain installed, nothing after it is installed, and on the
spec's example the entry named `a` is installed and the second entry fails
the name-must-be-a-string constraint. -/
theorem claim_C4_applyStaticMethods (schema : JSVal)
    (statics : List (String × JSVal)) (hschema : truthy schema = true) :
    (∀ es : List JSVal, (∀ e ∈ es, entryErr e = none) →
      applyStaticMethods schema (JSVal.vArr es) statics =
        (statics ++ es.map installPair, none)) ∧
    (∀ (pre : List JSVal) (bad : JSVal) (post : List JSVal) (err : Err),
      (∀ e ∈ pre, entryErr e = none) → entryErr bad = some err →
      applyStaticMethods schema (JSVal.vArr (pre ++ bad :: post)) statics =
        (statics ++ pre.map installPair, some err)) ∧
    (∀ f : Nat,
      applyStaticMethods schema
        (JSVal.vArr
          [JSVal.vObj [("name", JSVal.vStr "a"), ("fn", JSVal.vFun f)],
           JSVal.vObj [("name", JSVal.vNum 123), ("fn", JSVal.vFun f)]])
        statics =
        (statics ++ [("a", JSVal.vFun f)],
         some (Err.invalidParamType "method" "string" "number"))) := by
  refine ⟨fun es h => ?_, fun pre bad post err hpre hbad => ?_, fun f => ?_⟩
  · have harr : truthy (JSVal.vArr es) = true := rfl
    simp [applyStaticMethods, isArray, hschema, harr, arrayElems,
      applyLoop_all_valid es statics h]
  · have harr : truthy (JSVal.vArr (pre ++ bad :: post)) = true := rfl
    simp [applyStaticMethods, isArray, hschema, harr, arrayElems,
      applyLoop_first_invalid bad post err hbad pre statics hpre]
  · have h1 : entryErr (JSVal.vObj [("name", JSVal.vStr "a"),
        ("fn", JSVal.vFun f)]) = none := by
      simp [entryErr, getProp, typeofStr]
    have h2 : entryErr (JSVal.vObj [("name", JSVal.vNum 123),
        ("fn", JSVal.vFun f)]) =
        some (Err.invalidParamType "method" "string" "number") := by
      simp [entryErr, getProp, typeofStr]
    have hloop := applyLoop_first_invalid
      (JSVal.vObj [("name", JSVal.vNum 123), ("fn", JSVal.vFun f)]) [] _ h2
      [JSVal.vObj [("name", JSVal.vStr "a"), ("fn", JSVal.vFun f)]] statics
      (by intro x hx; simp at hx; subst hx; exact h1)
    have hred : applyStaticMethods schema
        (JSVal.vArr
          [JSVal.vObj [("name", JSVal.vStr "a"), ("fn", JSVal.vFun f)],
           JSVal.vObj [("name", JSVal.vNum 123), ("fn", JSVal.vFun f)]])
        statics =
        applyLoop statics
          [JSVal.vObj [("name", JSVal.vStr "a"), ("fn", JSVal.vFun f)],
           JSVal.vObj [("name", JSVal.vNum 123), ("fn", JSVal.vFun f)]] := by
      have harr : truthy (JSVal.vArr
          [JSVal.vObj [("name", JSVal.vStr "a"), ("fn", JSVal.vFun f)],
           JSVal.vObj [("name", JSVal.vNum 123), ("fn", JSVal.vFun f)]]) =
          true := rfl
      simp [applyStaticMethods, isArray, hschema, harr, arrayElems]
    rw [hred]
    simpa [installPair, getProp, jsStrVal] using hloop

/-- Witness for C4: the spec's example on a concrete schema value. -/
theorem claim_C4_witness :
    applyStaticMethods (JSVal.vObj [])
      (JSVal.vArr
        [JSVal.vObj [("name", JSVal.vStr "a"), ("fn", JSVal.vFun 0)],
         JSVal.vObj [("name", JSVal.vNum 123), ("fn", JSVal.vFun 0)]]) [] =
      ([("a", JSVal.vFun 0)],
       some (Err.invalidParamType "method" "string" "number")) :=
  (claim_C4_applyStaticMethods (JSVal.vObj []) [] rfl).2.2 0

/-- C5 counterexample: calling `applyStaticMethods` with the method list
missing (`undefined`) is rejected by the `Array.isArray` check, which runs
first, so the error is the type-mismatch kind — not the missing-parameter
kind the claim requires. -/
theorem claim_C5_counterexample :
    (applyStaticMethods (JSVal.vObj []) JSVal.vUndefined []).2 =
      some (Err.invalidParamType "methods" "Array" "undefined") ∧
    (applyStaticMethods (JSVal.vObj []) JSVal.vUndefined []).2 ≠
      some (Err.missingParam "methods") := by
  constructor
  · rfl
  · decide

/-- C5 (amended): a non-array method list — including a missing one — fails
with the type-mismatch kind; a missing schema with a proper array fails with
the missing-parameter kind; and the missing-parameter error for the method
list itself is unreachable, because every proper array is truthy. -/
theorem claim_C5_amended (TaskSchema methods : JSVal)
    (statics : List (String × JSVal)) :
    (isArray methods = false →
      (applyStaticMethods TaskSchema methods statics).2 =
        some (Err.invalidParamType "methods" "Array" (typeofStr methods))) ∧
    (isArray methods = true → truthy TaskSchema = false →
      (applyStaticMethods TaskSchema methods statics).2 =
        some (Err.missingParam "TaskSchema")) ∧
    (applyStaticMethods TaskSchema methods statics).2 ≠
      some (Err.missingParam "methods") := by
  refine ⟨fun h => by simp [applyStaticMethods, h], fun h hs => ?_, ?_⟩
  · simp [applyStaticMethods, h, hs]
  · intro hcontra
    by_cases ha : isArray methods = false
    · simp [applyStaticMethods, ha] at hcontra
    · by_cases hs : truthy TaskSchema = false
      · simp [applyStaticMethods, ha, hs] at hcontra
      · have ha2 : isArray methods = true := by
          cases hav : isArray methods
          · exact absurd hav ha
          · rfl
        have hm : truthy methods = true := truthy_of_isArray methods ha2
        simp [applyStaticMethods, ha, hs, hm] at hcontra
        exact applyLoop_ne_missingParam (arrayElems methods) statics "methods"
          hcontra

/-- Witness for C5 (amended): a string method list is a type mismatch
reporting `string`; an `undefined` schema with a proper array is the missing
`TaskSchema` parameter. -/
theorem claim_C5_witness :
    (applyStaticMethods (JSVal.vObj []) (JSVal.vStr "x") []).2 =
      some (Err.invalidParamType "methods" "Array" "string") ∧
    (applyStaticMethods JSVal.vUndefined (JSVal.vArr []) []).2 =
      some (Err.missingParam "TaskSchema") :=
  ⟨(claim_C5_amended (JSVal.vObj []) (JSVal.vStr "x") []).1 rfl,
   (claim_C5_amended JSVal.vUndefined (JSVal.vArr []) []).2.1 rfl rfl⟩

/-- C10: when an entry's `name` is a string but its `fn` is not callable, the
thrown error reports the runtime type of `name` (`string`) as the received
type — and therefore not the runtime type of `fn` whenever the latter
differs from `string`. -/
theorem claim_C10_received_type (schema name fn : JSVal)
    (statics : List (String × JSVal)) (hschema : truthy schema = true)
    (hname : typeofStr name = "string") (hfn : typeofStr fn ≠ "function") :
    applyStaticMethods schema
        (JSVal.vArr [JSVal.vObj [("name", name), ("fn", fn)]]) statics =
      (statics,
       some (Err.invalidParamType "method" "function" (typeofStr name))) ∧
    (typeofStr fn ≠ "string" →
      some (Err.invalidParamType "method" "function" (typeofStr name)) ≠
        some (Err.invalidParamType "method" "function" (typeofStr fn))) := by
  constructor
  · have hprops : getProp (JSVal.vObj [("name", name), ("fn", fn)]) "name" =
        name ∧ getProp (JSVal.vObj [("name", name), ("fn", fn)]) "fn" = fn := by
      simp [getProp]
    have he : entryErr (JSVal.vObj [("name", name), ("fn", fn)]) =
        some (Err.invalidParamType "method" "function" (typeofStr name)) := by
      simp [entryErr, hprops.1, hprops.2, hname, hfn]
    have harr : truthy (JSVal.vArr [JSVal.vObj [("name", name), ("fn", fn)]]) =
        true := rfl
    simp [applyStaticMethods, isArray, hschema, harr, arrayElems, applyLoop, he]
  · intro hdiff hcontra
    have : typeofStr name = typeofStr fn := by
      injection hcontra with h2
      injection h2
    rw [hname] at this
    exact hdiff this.symm

/-- Witness for C10: `name` is the string `a`, `fn` is the number `3`; the
received type in the error is `string`, not `number`. -/
theorem claim_C10_witness :
    applyStaticMethods (JSVal.vObj [])
        (JSVal.vArr [JSVal.vObj [("name", JSVal.vStr "a"),
          ("fn", JSVal.vNum 3)]]) [] =
      ([], some (Err.invalidParamType "method" "function" "string")) ∧
    some (Err.invalidParamType "method" "function" "string") ≠
      some (Err.invalidParamType "method" "function" "number") :=
  ⟨(claim_C10_received_type (JSVal.vObj []) (JSVal.vStr "a") (JSVal.vNum 3) []
      rfl rfl (by decide)).1,
   (claim_C10_received_type (JSVal.vObj []) (JSVal.vStr "a") (JSVal.vNum 3) []
      rfl rfl (by decide)).2 (by decide)⟩

/-- Folding pure steps through the executor succeeds with the left-to-right
fold of the underlying functions and hands it to the terminal consumer. -/
theorem pipeCreate_pure {α β ε : Type} (v : α) (gs : List (α → α))
    (terminal : α → β) :
    pipeCreate (ε := ε) v (gs.map liftPure) terminal =
      Except.ok (terminal (gs.foldl (fun a g => g a) v)) := by
  induction gs generalizing v with
  | nil => rfl
  | cons g rest ih =>
    simpa [pipeCreate, runSteps, liftPure] using ih (g v)

/-- Running steps over an appended list runs the first part, then feeds its
result to the second part — an error in the first part is final. -/
theorem runSteps_append {α ε : Type} (v : α) (fs gs : List (α → Except ε α)) :
    runSteps v (fs ++ gs) =
      match runSteps v fs with
      | Except.ok w => runSteps w gs
      | Except.error e => Except.error e := by
  induction fs generalizing v with
  | nil => simp [runSteps]
  | cons f rest ih =>
    simp only [List.cons_append, runSteps]
    cases f v with
    | ok w => exact ih w
    | error e => rfl

/-- C6: the pipeline executor applies the steps strictly in list order, each
step receiving its predecessor's output, and the terminal consumer is
invoked once with the left-to-right fold of the steps over the initial
value — the result is exactly the consumer's value on that fold. -/
theorem claim_C6_pipeline_order {α β ε : Type} (v : α) (gs : List (α → α))
    (terminal : α → β) :
    pipeCreate (ε := ε) v (gs.map liftPure) terminal =
      Except.ok (terminal (gs.foldl (fun a g => g a) v)) :=
  pipeCreate_pure v gs terminal

/-- C7: when some step fails, the steps after it and the terminal consumer
are never invoked — for every choice of later steps and of consumer the run
ends in exactly the failing step's error, which propagates unchanged to the
caller. -/
theorem claim_C7_short_circuit {α β ε : Type} (v w : α)
    (fs : List (α → Except ε α)) (f : α → Except ε α) (e : ε)
    (h1 : runSteps v fs = Except.ok w) (h2 : f w = Except.error e) :
    ∀ (gs : List (α → Except ε α)) (terminal : α → β),
      pipeCreate v (fs ++ f :: gs) terminal = Except.error e := by
  intro gs terminal
  unfold pipeCreate
  rw [runSteps_append, h1]
  simp [runSteps, h2, Except.map]

/-- Witness for C7: the second step fails; the third step and the consumer
do not affect the result, which is the failure itself. -/
theorem claim_C7_witness :
    pipeCreate 0
      ([fun a : Nat => Except.ok (a + 1)] ++
        (fun _ : Nat => Except.error "boom") ::
          [fun a : Nat => Except.ok (a * 2)])
      (fun a : Nat => a) = Except.error "boom" :=
  claim_C7_short_circuit 0 1 [fun a : Nat => Except.ok (a + 1)]
    (fun _ : Nat => Except.error "boom") "boom" rfl rfl
    [fun a : Nat => Except.ok (a * 2)] (fun a : Nat => a)

/-- C9: with a non-empty step list `response.json` emits the transformed
value under the `pipeData` wire key, and with an empty step list it emits
the original value under the `data` wire key — the payload key differs
according to whether a pipeline ran. -/
theorem claim_C9_response_json_keys {α ε : Type} (data : α) (sc : Nat)
    (su : Bool) :
    (∀ gs : List (α → α), gs ≠ [] →
      response_json (ε := ε) data sc su (gs.map liftPure) =
        Except.ok (RespBody.pipe su (gs.foldl (fun a g => g a) data) sc) ∧
      (RespBody.pipe su (gs.foldl (fun a g => g a) data) sc).keys =
        ["success", "pipeData", "statusCode"]) ∧
    (response_json (ε := ε) data sc su [] =
      Except.ok (RespBody.plain su data sc) ∧
     (RespBody.plain su data sc).keys = ["success", "data", "statusCode"]) := by
  constructor
  · intro gs hgs
    have hlen : (gs.map (liftPure (ε := ε))).length ≠ 0 := by
      simpa using hgs
    refine ⟨?_, rfl⟩
    simp only [response_json]
    rw [if_pos hlen]
    exact pipeCreate_pure data gs _
  · exact ⟨by simp [response_json], rfl⟩

/-- Witness for C9: one increment step yields the `pipeData` body holding 1;
no steps yield the `data` body holding the original 0. -/
theorem claim_C9_witness :
    response_json (ε := String) 0 200 true ([fun n : Nat => n + 1].map liftPure) =
      Except.ok (RespBody.pipe true 1 200) ∧
    (RespBody.pipe (α := Nat) true 1 200).keys =
      ["success", "pipeData", "statusCode"] ∧
    response_json (ε := String) (0 : Nat) 200 true [] =
      Except.ok (RespBody.plain true 0 200) ∧
    (RespBody.plain (α := Nat) true 0 200).keys =
      ["success", "data", "statusCode"] :=
  ⟨((claim_C9_response_json_keys 0 200 true).1 [fun n : Nat => n + 1]
      (by simp)).1,
   ((claim_C9_response_json_keys (ε := String) 0 200 true).1
      [fun n : Nat => n + 1] (by simp)).2,
   (claim_C9_response_json_keys 0 200 true).2.1,
   (claim_C9_response_json_keys (ε := String) (0 : Nat) 200 true).2.2⟩
